import Mathlib

/-!
Shallow embedding of the reconciliation-and-transfer engine of the
`cloud-tools` repository: the Cosmos DB document migrator
(`src/azure/cosmosdb/cosmos-migrator/data-migrator.js`), the storage blob
and queue migrators
(`src/azure/storage/storage-migrator/{blob-migrator,queue-migrator}.js`),
the storage comparer (`storage-comparer.js`) and the configuration
validator (`config.js`, `migrator.js`).

Vendor SDK calls are modelled by their observable outcome: an attempt
either succeeds or throws an error carrying an HTTP-style status code.
Stateful loops are compiled to structural recursion; while-loops bounded
by a retry counter take an explicit `remaining`-iterations argument equal
to the number of loop iterations still allowed, so every definition
computes by structural recursion.
-/

namespace CloudTools

/-- Outcome of one vendor-SDK call: success, or a thrown error carrying an
HTTP-style status code (`error.code` / `error.statusCode` in the source). -/
inductive Result where
  | ok : Result
  | err (code : Nat) : Result
deriving DecidableEq, Repr

/-- `DataMigrator._isRetryableError` (data-migrator.js lines 217-220):
`error.code === 429 || (error.code >= 500 && error.code < 600)`. -/
def isRetryableError (code : Nat) : Bool :=
  code == 429 || (500 ≤ code && code < 600)

/-- Observable trace of one item's retry loop: how many times the apply
call was attempted, the sleep durations (milliseconds) inserted between
consecutive attempts in order, and the final outcome. -/
structure RetryTrace where
  attempts : Nat
  delays : List Nat
  outcome : Result
deriving DecidableEq, Repr

/-- `DataMigrator._createDocumentWithRetry` (data-migrator.js lines
200-212), compiled to structural recursion.  `apply i` is the outcome of
the `container.items.create` call made with `retryCount = i`; `remaining`
is the exact number of further recursive calls still permitted, namely
`maxRetries - retryCount`, so the guard `retryCount < maxRetries` of the
source is the test `remaining` is positive.  On a retryable error below
the bound the source sleeps `Math.pow(2, retryCount) * 1000` milliseconds
and recurses with `retryCount + 1`; otherwise the error is rethrown. -/
def createDocumentWithRetryGo (apply : Nat → Result) :
    (remaining retryCount : Nat) → RetryTrace
  | 0, retryCount =>
    match apply retryCount with
    | .ok => ⟨1, [], .ok⟩
    | .err c => ⟨1, [], .err c⟩
  | r + 1, retryCount =>
    match apply retryCount with
    | .ok => ⟨1, [], .ok⟩
    | .err c =>
      if isRetryableError c then
        let rest := createDocumentWithRetryGo apply r (retryCount + 1)
        ⟨rest.attempts + 1, 2 ^ retryCount * 1000 :: rest.delays, rest.outcome⟩
      else ⟨1, [], .err c⟩

/-- `_createDocumentWithRetry` entered at `retryCount = 0`, as
`_migrateBatch` calls it. -/
def createDocumentWithRetry (maxRetries : Nat) (apply : Nat → Result) : RetryTrace :=
  createDocumentWithRetryGo apply maxRetries 0

/-- Behaviour of one document of a batch, as observed by `_migrateBatch`
(data-migrator.js lines 157-195): `probe` is the outcome of the
`targetContainer.item(...).read()` existence check (`.ok` means the
document already exists in the destination), and `create i` is the outcome
of attempt `i` of `container.items.create` inside
`_createDocumentWithRetry`.  `id` stands for `document.id`, used in the
error message pushed to `this.stats.errors`. -/
structure DocBehavior where
  id : Nat
  probe : Result
  create : Nat → Result

/-- Terminal bucket of one document: exactly the three counters of
`batchStats` in `_migrateBatch`. -/
inductive DocOutcome where
  | migrated
  | skipped
  | failed
deriving DecidableEq, Repr

/-- Per-document observable trace of the body of the `for` loop of
`_migrateBatch`: the bucket the document lands in and how many times the
`items.create` call was invoked for it. -/
structure DocTrace where
  outcome : DocOutcome
  createAttempts : Nat
deriving DecidableEq, Repr

/-- The create-with-retry step of one `_migrateBatch` iteration: the
document is `migrated` when `_createDocumentWithRetry` returns, `failed`
when it throws into the outer catch. -/
def attemptCreate (maxRetries : Nat) (d : DocBehavior) : DocTrace :=
  let t := createDocumentWithRetry maxRetries d.create
  match t.outcome with
  | .ok => ⟨.migrated, t.attempts⟩
  | .err _ => ⟨.failed, t.attempts⟩

/-- One iteration of the `for` loop of `_migrateBatch` (data-migrator.js
lines 160-191).  With `skipExisting` on, a successful existence probe
records the document as skipped and `continue`s; a probe error other than
404 is rethrown and lands in the outer catch (failed); a 404 probe error
means the document does not exist and migration proceeds. -/
def migrateDoc (maxRetries : Nat) (skipExisting : Bool) (d : DocBehavior) : DocTrace :=
  if skipExisting then
    match d.probe with
    | .ok => ⟨.skipped, 0⟩
    | .err c =>
      if c ≠ 404 then ⟨.failed, 0⟩
      else attemptCreate maxRetries d
  else attemptCreate maxRetries d

/-- Observable result of one `_migrateBatch` call: the three `batchStats`
counters, the document ids appended to the run-level `this.stats.errors`,
the ids of the documents the loop actually reached, and — when
`continueOnError` is false and a document failed — the id wrapped in the
`Error` thrown out of `_migrateBatch`. -/
structure BatchResult where
  migrated : Nat
  skipped : Nat
  failed : Nat
  errors : List Nat
  attempted : List Nat
  thrown : Option Nat
deriving DecidableEq, Repr

/-- `DataMigrator._migrateBatch` (data-migrator.js lines 157-195): a
sequential `for` loop over the documents.  A failed document increments
`failed` and appends an error; when `continueOnError` is false the loop
rethrows at that document and the remaining documents are never reached. -/
def migrateBatch (maxRetries : Nat) (skipExisting continueOnError : Bool) :
    List DocBehavior → BatchResult
  | [] => ⟨0, 0, 0, [], [], none⟩
  | d :: rest =>
    let t := migrateDoc maxRetries skipExisting d
    match t.outcome with
    | .migrated =>
      let r := migrateBatch maxRetries skipExisting continueOnError rest
      ⟨r.migrated + 1, r.skipped, r.failed, r.errors, d.id :: r.attempted, r.thrown⟩
    | .skipped =>
      let r := migrateBatch maxRetries skipExisting continueOnError rest
      ⟨r.migrated, r.skipped + 1, r.failed, r.errors, d.id :: r.attempted, r.thrown⟩
    | .failed =>
      if continueOnError then
        let r := migrateBatch maxRetries skipExisting continueOnError rest
        ⟨r.migrated, r.skipped, r.failed + 1, d.id :: r.errors, d.id :: r.attempted, r.thrown⟩
      else
        ⟨0, 0, 1, [d.id], [d.id], some d.id⟩

/-- The four `containerStats` counters of `migrateContainer`
(data-migrator.js line 98). -/
structure ContainerStats where
  total : Nat
  migrated : Nat
  failed : Nat
  skipped : Nat
deriving DecidableEq, Repr

/-- One observable step of the `migrateContainer` read loop: a
`fetchNext` read issued with a continuation token (`none` on the first
read, where `queryOptions` carries no `continuationToken`), or one
`_migrateBatch` call handed one page's documents (recorded by their ids). -/
inductive PageEvent where
  | read (token : Option Nat)
  | execute (docIds : List Nat)
deriving DecidableEq, Repr

/-- The paginated source container, modelled as its list of pages.  A
continuation token is the index of the page it resumes at; `fetchNext`
with token `t` returns page `t` (page 0 when no token is supplied, as on
the first read) together with the next token, or no token after the last
page — the collaborator contract of
`sourceContainer.items.readAll(queryOptions).fetchNext()`. -/
def fetchNext (pages : List (List DocBehavior)) (token : Option Nat) :
    List DocBehavior × Option Nat :=
  let i := token.getD 0
  (pages.getD i [], if i + 1 < pages.length then some (i + 1) else none)

/-- The `do … while (continuationToken)` loop of
`DataMigrator.migrateContainer` (data-migrator.js lines 100-130),
compiled to structural recursion on the number of loop iterations still
allowed (the loop runs at most once per page, so `pages.length + 1`
iterations always suffice).  Each iteration issues one read with the
current token; when the page is non-empty it makes exactly one
`_migrateBatch` call and folds the batch counters into `containerStats`;
a batch that throws (`continueOnError` false) propagates out of the loop.
Returns the accumulated stats, the event trace in order, and the thrown
error, if any. -/
def migrateContainerGo (maxRetries : Nat) (skipExisting continueOnError : Bool)
    (pages : List (List DocBehavior)) :
    (remaining : Nat) → Option Nat → ContainerStats →
      ContainerStats × List PageEvent × Option Nat
  | 0, _, acc => (acc, [], none)
  | remaining + 1, token, acc =>
    let (documents, nextToken) := fetchNext pages token
    if documents.length > 0 then
      let br := migrateBatch maxRetries skipExisting continueOnError documents
      match br.thrown with
      | some e =>
        -- `_migrateBatch` threw: the `containerStats` updates after the
        -- call (lines 122-125) never run, so the accumulator is unchanged.
        (acc, [.read token, .execute (documents.map DocBehavior.id)], some e)
      | none =>
        let acc' : ContainerStats :=
          ⟨acc.total + documents.length, acc.migrated + br.migrated,
           acc.failed + br.failed, acc.skipped + br.skipped⟩
        match nextToken with
        | some t =>
          let (s, evs, th) :=
            migrateContainerGo maxRetries skipExisting continueOnError pages
              remaining (some t) acc'
          (s, .read token :: .execute (documents.map DocBehavior.id) :: evs, th)
        | none => (acc', [.read token, .execute (documents.map DocBehavior.id)], none)
    else
      match nextToken with
      | some t =>
        let (s, evs, th) :=
          migrateContainerGo maxRetries skipExisting continueOnError pages
            remaining (some t) acc
        (s, .read token :: evs, th)
      | none => (acc, [.read token], none)

/-- `migrateContainer`'s document loop entered as the source enters it:
no continuation token, zeroed `containerStats`. -/
def migrateContainer (maxRetries : Nat) (skipExisting continueOnError : Bool)
    (pages : List (List DocBehavior)) :
    ContainerStats × List PageEvent × Option Nat :=
  migrateContainerGo maxRetries skipExisting continueOnError pages
    (pages.length + 1) none ⟨0, 0, 0, 0⟩

/-- One source container as `migrateContainer` sees it: whether the
target container exists (the `targetContainer.read()` check at
data-migrator.js lines 86-95; on a 404 the container is reported in
`errors` and contributes nothing to the counters), and its pages. -/
structure ContainerBehavior where
  targetExists : Bool
  pages : List (List DocBehavior)

/-- The per-database aggregation of `migrateDatabase` together with
`migrateContainer` (data-migrator.js lines 47-53 and 132-136): each
container's `containerStats` are added onto the run-level
`this.stats.{total,migrated,failed,skipped}Documents`. -/
def migrateDatabase (maxRetries : Nat) (skipExisting continueOnError : Bool)
    (containers : List ContainerBehavior) : ContainerStats :=
  containers.foldl
    (fun acc c =>
      if c.targetExists then
        let (s, _, _) := migrateContainer maxRetries skipExisting continueOnError c.pages
        ⟨acc.total + s.total, acc.migrated + s.migrated,
         acc.failed + s.failed, acc.skipped + s.skipped⟩
      else acc)
    ⟨0, 0, 0, 0⟩

/-- Observable trace of one `_migrateBlob` call (blob-migrator.js lines
200-271): the counter it incremented on `results`, the error messages
(recorded by status code) it pushed, how many times the copy body was
attempted, the sleep durations between attempts, and the error rethrown
out of the call (only when `continueOnError` is false and retries are
exhausted). -/
structure ItemTrace where
  migrated : Nat
  skipped : Nat
  failed : Nat
  errors : List Nat
  attempts : Nat
  delays : List Nat
  thrown : Option Nat
deriving DecidableEq, Repr

/-- `BlobMigrator._migrateBlob` (blob-migrator.js lines 200-271), the
`while (retries <= this.config.maxRetries)` loop compiled to structural
recursion; `remaining` is the exact number of loop iterations still
allowed, `maxRetries + 1 - retries`, so the `0` case is the loop exit.
`probe i` is the outcome of the `destinationBlobClient.getProperties()`
existence check in iteration `i` (its inner catch swallows every error
and proceeds with migration); `body i` is the outcome of the rest of the
try block (the copy and property calls) in iteration `i`.  On a caught
error the source increments `retries`; once `retries > maxRetries` it
records the failure (and rethrows when `continueOnError` is false),
otherwise it sleeps `1000 * retries` milliseconds and loops. -/
def migrateBlobGo (maxRetries : Nat) (skipExisting continueOnError : Bool)
    (probe body : Nat → Result) : (remaining retries : Nat) → ItemTrace
  | 0, _ => ⟨0, 0, 0, [], 0, [], none⟩
  | remaining + 1, retries =>
    if skipExisting ∧ probe retries = .ok then
      ⟨0, 1, 0, [], 0, [], none⟩
    else
      match body retries with
      | .ok => ⟨1, 0, 0, [], 1, [], none⟩
      | .err c =>
        let r := retries + 1
        if r > maxRetries then
          ⟨0, 0, 1, [c], 1, [], if continueOnError then none else some c⟩
        else
          let rest := migrateBlobGo maxRetries skipExisting continueOnError probe body remaining r
          ⟨rest.migrated, rest.skipped, rest.failed, rest.errors,
           rest.attempts + 1, 1000 * r :: rest.delays, rest.thrown⟩

/-- `_migrateBlob` entered with `retries = 0` as the source initialises
it. -/
def migrateBlob (maxRetries : Nat) (skipExisting continueOnError : Bool)
    (probe body : Nat → Result) : ItemTrace :=
  migrateBlobGo maxRetries skipExisting continueOnError probe body (maxRetries + 1) 0

/-- The batch loop of `BlobMigrator.migrateContainer` (blob-migrator.js
lines 184-190): each batch is mapped over `_migrateBlob` and awaited with
`Promise.allSettled`, which never rejects — every blob of the batch runs
to completion and a rejected promise (the `continueOnError = false`
rethrow) is recorded as settled and its error discarded, so the next
batch always runs.  The result folds every item's counters into
`results`; `itemsAttempted` counts the `_migrateBlob` calls started. -/
structure BlobRunStats where
  migrated : Nat
  skipped : Nat
  failed : Nat
  errors : List Nat
  itemsAttempted : Nat
deriving DecidableEq, Repr

/-- One blob's behaviour inside a batch: its existence-probe and
copy-body outcomes per loop iteration. -/
structure BlobBehavior where
  probe : Nat → Result
  body : Nat → Result

/-- How one settled `_migrateBlob` promise contributes to `results`: its
counter increments and error pushes land, its rethrow (if any) is
discarded, because `Promise.allSettled` records a rejected promise as
settled and never rejects itself. -/
def settleBlob (maxRetries : Nat) (skipExisting continueOnError : Bool)
    (acc : BlobRunStats) (b : BlobBehavior) : BlobRunStats :=
  let t := migrateBlob maxRetries skipExisting continueOnError b.probe b.body
  ⟨acc.migrated + t.migrated, acc.skipped + t.skipped, acc.failed + t.failed,
   acc.errors ++ t.errors, acc.itemsAttempted + 1⟩

/-- The `for (const batch of batches) { await Promise.allSettled(...) }`
loop of `migrateContainer` over already-formed batches: every blob of
every batch is started and settled. -/
def migrateContainerBlobBatches (maxRetries : Nat) (skipExisting continueOnError : Bool)
    (batches : List (List BlobBehavior)) : BlobRunStats :=
  batches.foldl
    (fun acc batch => batch.foldl (settleBlob maxRetries skipExisting continueOnError) acc)
    ⟨0, 0, 0, [], 0⟩

/-- `BlobMigrator._createBatches` (blob-migrator.js lines 310-316):
slices of `batchSize` consecutive items. -/
def createBatches : (items : List BlobBehavior) → (batchSize : Nat) → List (List BlobBehavior)
  | [], _ => []
  | x :: xs, batchSize =>
    if _h : batchSize = 0 then []
    else (x :: xs).take batchSize :: createBatches ((x :: xs).drop batchSize) batchSize
termination_by items _ => items.length
decreasing_by
  simp only [List.length_drop, List.length_cons]
  omega

/-- The per-queue retry loop shared by
`QueueMigrator._executeCreateActions`, `_executeUpdateActions` and
`_executeDeleteActions` (queue-migrator.js lines 236-279, 301-341,
363-401): same `while (retries <= maxRetries)` skeleton as
`_migrateBlob`, without the existence probe; `body i` is the outcome of
the vendor call(s) of iteration `i`, the sleep before a retry is
`1000 * retries` milliseconds. -/
def executeQueueActionGo (maxRetries : Nat) (continueOnError : Bool)
    (body : Nat → Result) : (remaining retries : Nat) → ItemTrace
  | 0, _ => ⟨0, 0, 0, [], 0, [], none⟩
  | remaining + 1, retries =>
    match body retries with
    | .ok => ⟨1, 0, 0, [], 1, [], none⟩
    | .err c =>
      let r := retries + 1
      if r > maxRetries then
        ⟨0, 0, 1, [c], 1, [], if continueOnError then none else some c⟩
      else
        let rest := executeQueueActionGo maxRetries continueOnError body remaining r
        ⟨rest.migrated, rest.skipped, rest.failed, rest.errors,
         rest.attempts + 1, 1000 * r :: rest.delays, rest.thrown⟩

/-- One queue action's retry loop entered with `retries = 0`. -/
def executeQueueAction (maxRetries : Nat) (continueOnError : Bool)
    (body : Nat → Result) : ItemTrace :=
  executeQueueActionGo maxRetries continueOnError body (maxRetries + 1) 0

/-- One queue entry as `listSourceQueues` / `listDestinationQueues`
return it (queue-migrator.js lines 47-90): its name and its metadata, an
object embedded as an association list with distinct keys (a JS object
cannot hold two properties of the same name). -/
structure QueueRecord where
  name : String
  metadata : List (String × String)
deriving DecidableEq, Repr

/-- Property access `m[k]` on a metadata object: the stored value, or
`undefined` (`none`) when the key is absent. -/
def metadataLookup (m : List (String × String)) (k : String) : Option String :=
  (m.find? (fun p => p.1 == k)).map (·.2)

/-- Key membership in a JS `Map` keyed by queue name (`map.has(name)`). -/
def hasName (m : List QueueRecord) (k : String) : Bool :=
  m.any (fun q => q.name == k)

/-- `map.get(name)` on a JS `Map` built by insertion from a list. -/
def getName (m : List QueueRecord) (k : String) : Option QueueRecord :=
  m.find? (fun q => q.name == k)

/-- `QueueMigrator._shouldUpdateQueue` (queue-migrator.js lines 197-220):
with metadata preservation off it never updates; otherwise it compares
the two key lists' lengths (the source sorts the key lists first, which
changes neither the lengths nor the key-by-key comparison below) and then
every source key's value against the destination's. -/
def shouldUpdateQueue (preserveMetadata : Bool) (sourceQueue destinationQueue : QueueRecord) :
    Bool :=
  if !preserveMetadata then false
  else
    let sourceKeys := sourceQueue.metadata.map (·.1)
    let destinationKeys := destinationQueue.metadata.map (·.1)
    if sourceKeys.length ≠ destinationKeys.length then true
    else sourceKeys.any (fun k =>
      metadataLookup sourceQueue.metadata k ≠ metadataLookup destinationQueue.metadata k)

/-- An entry of `actions.update` in `_planQueueActions`:
`{name, sourceQueue, destinationQueue}`. -/
structure UpdateAction where
  name : String
  sourceQueue : QueueRecord
  destinationQueue : QueueRecord
deriving DecidableEq, Repr

/-- The `{create, update, delete}` action plan of `_planQueueActions`. -/
structure QueueActions where
  create : List QueueRecord
  update : List UpdateAction
  delete : List QueueRecord
deriving DecidableEq, Repr

/-- `QueueMigrator._planQueueActions` (queue-migrator.js lines 159-192).
The source iterates the source map pushing creates (name absent from the
destination) and updates (name present and `_shouldUpdateQueue`), then
iterates the destination map pushing deletes (name absent from the
source); a filter over each snapshot in order produces the same pushes in
the same order. -/
def planQueueActions (preserveMetadata : Bool)
    (sourceQueueMap destinationQueueMap : List QueueRecord) : QueueActions where
  create := sourceQueueMap.filter (fun q => !hasName destinationQueueMap q.name)
  update := sourceQueueMap.filterMap (fun q =>
    match getName destinationQueueMap q.name with
    | none => none
    | some d =>
      if shouldUpdateQueue preserveMetadata q d then some ⟨q.name, q, d⟩ else none)
  delete := destinationQueueMap.filter (fun q => !hasName sourceQueueMap q.name)

/-- The action-execution phase of `QueueMigrator.synchronizeQueues`
(queue-migrator.js lines 141-147) restricted to its delete branch: with
`preserveDestinationQueues` set, `_executeDeleteActions` is never called
— no deletion is issued — and `results.skippedQueues` grows by the number
of planned deletes; otherwise every planned delete is handed to
`_executeDeleteActions`.  Returns the queue names handed to
`_executeDeleteActions` and the `skippedQueues` increment. -/
def synchronizeQueuesDeletePhase (preserveDestinationQueues : Bool)
    (deleteActions : List QueueRecord) : List String × Nat :=
  if deleteActions.length > 0 ∧ !preserveDestinationQueues then
    (deleteActions.map QueueRecord.name, 0)
  else if deleteActions.length > 0 then
    ([], deleteActions.length)
  else ([], 0)

/-- One entry of the difference list produced by
`StorageComparer._compareMetadata`. -/
inductive MetadataDiff where
  | missingInDestination (key sourceValue : String)
  | valueDifference (key sourceValue destinationValue : String)
  | extraInDestination (key destinationValue : String)
deriving DecidableEq, Repr

/-- `StorageComparer._compareMetadata` (storage-comparer.js lines
324-359): a symmetric key-set diff — source keys absent from the
destination, keys present on both sides with differing values, then
destination keys absent from the source, each reported individually. -/
def compareMetadata (sourceMetadata destinationMetadata : List (String × String)) :
    List MetadataDiff :=
  (sourceMetadata.filterMap (fun p =>
    match metadataLookup destinationMetadata p.1 with
    | none => some (.missingInDestination p.1 p.2)
    | some v => if p.2 ≠ v then some (.valueDifference p.1 p.2 v) else none))
  ++ destinationMetadata.filterMap (fun p =>
    match metadataLookup sourceMetadata p.1 with
    | none => some (.extraInDestination p.1 p.2)
    | some _ => none)

/-- The `actions` lists (queue names) computed by
`StorageComparer._compareQueueLists` (storage-comparer.js lines 222-294):
creates for source-only names, updates for names present on both sides
whose `_compareMetadata` diff is non-empty, and deletes for
destination-only names — the latter pushed only when
`preserveDestinationQueues` is unset. -/
def compareQueueListsActions (preserveDestinationQueues : Bool)
    (sourceQueues destinationQueues : List QueueRecord) : QueueActions :=
  let sourceMap := sourceQueues
  let destinationMap := destinationQueues
  { create := sourceMap.filter (fun q => !hasName destinationMap q.name)
    update := sourceMap.filterMap (fun q =>
      match getName destinationMap q.name with
      | none => none
      | some d =>
        if (compareMetadata q.metadata d.metadata).length > 0 then some ⟨q.name, q, d⟩
        else none)
    delete :=
      if preserveDestinationQueues then []
      else destinationMap.filter (fun q => !hasName sourceMap q.name) }

/-- The fields of `StorageConfig` (config.js lines 10-45) that
`validate` reads.  Each credential field holds the configured string,
empty when unset (JS string truthiness: only the empty string is falsy
here). -/
structure StorageConfig where
  sourceConnectionString : String
  sourceAccountName : String
  sourceAccountKey : String
  sourceSasToken : String
  destinationConnectionString : String
  destinationAccountName : String
  destinationAccountKey : String
  destinationSasToken : String
  includeBlobs : Bool
  includeFiles : Bool
  includeQueues : Bool
  includeTables : Bool
deriving DecidableEq, Repr

/-- `StorageConfig.validate` (config.js lines 57-78): the `errors` array
it accumulates.  The source throws exactly when this list is non-empty. -/
def StorageConfig.validate (c : StorageConfig) : List String :=
  (if c.sourceConnectionString = "" ∧
      (c.sourceAccountName = "" ∨ (c.sourceAccountKey = "" ∧ c.sourceSasToken = "")) then
    ["Source storage account credentials are required (connection string OR account name + key/SAS token)"]
  else []) ++
  (if c.destinationConnectionString = "" ∧
      (c.destinationAccountName = "" ∨
        (c.destinationAccountKey = "" ∧ c.destinationSasToken = "")) then
    ["Destination storage account credentials are required (connection string OR account name + key/SAS token)"]
  else []) ++
  (if !c.includeBlobs ∧ !c.includeFiles ∧ !c.includeQueues ∧ !c.includeTables then
    ["At least one service type must be selected (blobs, files, queues, or tables)"]
  else [])

/-- `StorageMigrator.migrate` (migrator.js lines 27-91): it calls
`this.config.validate()` before constructing results or touching any
service migrator; a validation throw propagates out of `migrate` and the
blob work (modelled by `blobWork`, producing the event log of the
migration it performs) is never invoked. -/
def StorageMigrator.migrate (c : StorageConfig) (blobWork : Unit → List String) :
    Except String (List String) :=
  if c.validate ≠ [] then
    .error "Configuration validation failed"
  else
    .ok (if c.includeBlobs then blobWork () else [])

/-! ### Helper lemmas about the retry loops -/

/-- Splitting one element off a mapped `List.range`. -/
lemma map_range_succ (g : Nat → Nat) (r : Nat) :
    (List.range (r + 1)).map g = g 0 :: (List.range r).map (fun i => g (i + 1)) := by
  rw [List.range_succ_eq_map, List.map_cons, List.map_map]
  rfl

/-- An apply function that always throws a retryable error drives
`_createDocumentWithRetry` through every permitted retry: one attempt per
recursion level, sleeping `2 ^ retryCount * 1000` before each retry. -/
lemma createGo_retryable (code : Nat → Nat) (h : ∀ i, isRetryableError (code i) = true) :
    ∀ rem rc : Nat,
      createDocumentWithRetryGo (fun i => Result.err (code i)) rem rc =
        ⟨rem + 1, (List.range rem).map (fun i => 2 ^ (rc + i) * 1000),
         Result.err (code (rc + rem))⟩ := by
  intro rem
  induction rem with
  | zero => intro rc; simp [createDocumentWithRetryGo]
  | succ r ih =>
    intro rc
    simp only [createDocumentWithRetryGo, h rc, if_true]
    rw [ih (rc + 1)]
    simp only [RetryTrace.mk.injEq, Result.err.injEq, true_and, and_true]
    constructor
    · rw [map_range_succ (fun i => 2 ^ (rc + i) * 1000) r]
      simp only [Nat.add_zero]
      exact congrArg _ (List.map_congr_left fun i _ => by
        rw [show rc + 1 + i = rc + (i + 1) by omega])
    · exact congrArg code (by omega)

/-- A non-retryable error is rethrown at once: a single attempt, no
sleep. -/
lemma createGo_terminal (apply : Nat → Result) (rem rc c : Nat)
    (happ : apply rc = Result.err c) (hc : isRetryableError c = false) :
    createDocumentWithRetryGo apply rem rc = ⟨1, [], Result.err c⟩ := by
  cases rem <;> simp [createDocumentWithRetryGo, happ, hc]

/-- A first-attempt success returns at once. -/
lemma createGo_ok (apply : Nat → Result) (rem rc : Nat) (happ : apply rc = Result.ok) :
    createDocumentWithRetryGo apply rem rc = ⟨1, [], Result.ok⟩ := by
  cases rem <;> simp [createDocumentWithRetryGo, happ]

/-- One-step unfolding of the queue-action retry loop at positive fuel. -/
lemma queueGo_succ (m : Nat) (co : Bool) (body : Nat → Result) (r rc : Nat) :
    executeQueueActionGo m co body (r + 1) rc =
      match body rc with
      | .ok => ⟨1, 0, 0, [], 1, [], none⟩
      | .err c =>
        if rc + 1 > m then
          ⟨0, 0, 1, [c], 1, [], if co then none else some c⟩
        else
          let rest := executeQueueActionGo m co body r (rc + 1)
          ⟨rest.migrated, rest.skipped, rest.failed, rest.errors,
           rest.attempts + 1, 1000 * (rc + 1) :: rest.delays, rest.thrown⟩ := rfl

/-- The queue-action retry loop on an always-failing body: entered with
`retries = rc` and `rem = maxRetries + 1 - rc` permitted iterations, it
attempts once per iteration, sleeps `1000 * retries` before each retry,
and finally records one failure carrying the last attempt's code. -/
lemma queueGo_failing (m : Nat) (co : Bool) (code : Nat → Nat) :
    ∀ rem rc : Nat, rc + rem = m + 1 → 1 ≤ rem →
      executeQueueActionGo m co (fun i => Result.err (code i)) rem rc =
        ⟨0, 0, 1, [code m], rem, (List.range (rem - 1)).map (fun i => 1000 * (rc + 1 + i)),
         if co then none else some (code m)⟩ := by
  intro rem
  induction rem with
  | zero => omega
  | succ r ih =>
    intro rc hsum _
    rw [queueGo_succ]
    dsimp only
    cases r with
    | zero =>
      have hrc : rc = m := by omega
      subst hrc
      have h1 : rc + 1 > rc := by omega
      rw [if_pos h1]
      simp
    | succ r' =>
      have h1 : ¬ rc + 1 > m := by omega
      rw [if_neg h1, ih (rc + 1) (by omega) (by omega)]
      simp only [ItemTrace.mk.injEq, Nat.add_sub_cancel, true_and, and_true]
      rw [map_range_succ (fun i => 1000 * (rc + 1 + i)) r']
      simp only [Nat.add_zero]
      exact congrArg _ (List.map_congr_left fun i _ => by
        rw [show rc + 1 + 1 + i = rc + 1 + (i + 1) by omega])

/-- One-step unfolding of the blob retry loop at positive fuel. -/
lemma blobGo_succ (m : Nat) (sE co : Bool) (probe body : Nat → Result) (r rc : Nat) :
    migrateBlobGo m sE co probe body (r + 1) rc =
      if sE ∧ probe rc = .ok then ⟨0, 1, 0, [], 0, [], none⟩
      else
        match body rc with
        | .ok => ⟨1, 0, 0, [], 1, [], none⟩
        | .err c =>
          if rc + 1 > m then
            ⟨0, 0, 1, [c], 1, [], if co then none else some c⟩
          else
            let rest := migrateBlobGo m sE co probe body r (rc + 1)
            ⟨rest.migrated, rest.skipped, rest.failed, rest.errors,
             rest.attempts + 1, 1000 * (rc + 1) :: rest.delays, rest.thrown⟩ := rfl

/-- With `skipExisting` off, `_migrateBlob`'s loop body never takes the
probe branch and coincides with the queue-action loop. -/
lemma blobGo_skipOff (m : Nat) (co : Bool) (probe body : Nat → Result) :
    ∀ rem rc : Nat,
      migrateBlobGo m false co probe body rem rc = executeQueueActionGo m co body rem rc := by
  intro rem
  induction rem with
  | zero => intro rc; rfl
  | succ r ih =>
    intro rc
    rw [blobGo_succ, queueGo_succ, if_neg (by simp)]
    cases body rc with
    | ok => rfl
    | err c =>
      dsimp only
      by_cases h : rc + 1 > m
      · rw [if_pos h, if_pos h]
      · rw [if_neg h, if_neg h, ih (rc + 1)]

/-- A document that migrates on its first create attempt. -/
lemma migrateDoc_ok (m : Nat) (sE : Bool) (d : DocBehavior)
    (hc : d.create 0 = Result.ok) (hp : sE = true → d.probe = Result.err 404) :
    migrateDoc m sE d = ⟨.migrated, 1⟩ := by
  have hac : attemptCreate m d = ⟨.migrated, 1⟩ := by
    unfold attemptCreate createDocumentWithRetry
    rw [createGo_ok _ _ _ hc]
  cases sE with
  | false => simpa [migrateDoc] using hac
  | true => simp [migrateDoc, hp rfl, hac]

/-- A document whose create attempt throws a terminal error. -/
lemma migrateDoc_terminal (m : Nat) (sE : Bool) (d : DocBehavior) (c : Nat)
    (hc : d.create 0 = Result.err c) (hret : isRetryableError c = false)
    (hp : sE = true → d.probe = Result.err 404) :
    migrateDoc m sE d = ⟨.failed, 1⟩ := by
  have hac : attemptCreate m d = ⟨.failed, 1⟩ := by
    unfold attemptCreate createDocumentWithRetry
    rw [createGo_terminal _ _ _ _ hc hret]
  cases sE with
  | false => simpa [migrateDoc] using hac
  | true => simp [migrateDoc, hp rfl, hac]

/-- A run of documents that all migrate contributes only `migrated`
increments, in order, and never throws. -/
lemma migrateBatch_all_migrated (m : Nat) (sE co : Bool) :
    ∀ docs : List DocBehavior, (∀ d ∈ docs, (migrateDoc m sE d).outcome = .migrated) →
      migrateBatch m sE co docs =
        ⟨docs.length, 0, 0, [], docs.map DocBehavior.id, none⟩ := by
  intro docs
  induction docs with
  | nil => intro _; rfl
  | cons d rest ih =>
    intro hall
    have hd := hall d (List.mem_cons_self d rest)
    simp only [migrateBatch, hd]
    rw [ih (fun x hx => hall x (List.mem_cons_of_mem d hx))]
    simp

/-- Prepending a run of all-migrating documents to a batch shifts the
remainder's result by their count. -/
lemma migrateBatch_append_migrated (m : Nat) (sE co : Bool) :
    ∀ (pre rest : List DocBehavior), (∀ d ∈ pre, (migrateDoc m sE d).outcome = .migrated) →
      migrateBatch m sE co (pre ++ rest) =
        let r := migrateBatch m sE co rest
        ⟨r.migrated + pre.length, r.skipped, r.failed, r.errors,
         pre.map DocBehavior.id ++ r.attempted, r.thrown⟩ := by
  intro pre
  induction pre with
  | nil => intro rest _; simp
  | cons d pre' ih =>
    intro rest hall
    have hd := hall d (List.mem_cons_self d pre')
    simp only [List.cons_append, migrateBatch, hd, List.append_eq]
    rw [ih rest (fun x hx => hall x (List.mem_cons_of_mem d hx))]
    simp [Nat.add_assoc]

/-- With `continueOnError` on, every document of a batch lands in exactly
one of the three counters and the batch never throws. -/
lemma migrateBatch_sum (m : Nat) (sE : Bool) :
    ∀ docs : List DocBehavior,
      (migrateBatch m sE true docs).migrated + (migrateBatch m sE true docs).skipped +
          (migrateBatch m sE true docs).failed = docs.length
      ∧ (migrateBatch m sE true docs).thrown = none := by
  intro docs
  induction docs with
  | nil => exact ⟨rfl, rfl⟩
  | cons d rest ih =>
    obtain ⟨ih1, ih2⟩ := ih
    cases houtcome : (migrateDoc m sE d).outcome with
    | migrated =>
      simp only [migrateBatch, houtcome, List.length_cons]
      exact ⟨by omega, ih2⟩
    | skipped =>
      simp only [migrateBatch, houtcome, List.length_cons]
      exact ⟨by omega, ih2⟩
    | failed =>
      simp only [migrateBatch, houtcome, List.length_cons, if_true]
      exact ⟨by omega, ih2⟩

/-- With `continueOnError` on, every step of the `migrateContainer` read
loop preserves the counter identity `total = migrated + skipped + failed`
of the accumulated `containerStats`. -/
lemma migrateContainerGo_inv (m : Nat) (sE : Bool) (pages : List (List DocBehavior)) :
    ∀ (rem : Nat) (tok : Option Nat) (acc : ContainerStats),
      acc.total = acc.migrated + acc.skipped + acc.failed →
      (migrateContainerGo m sE true pages rem tok acc).1.total =
        (migrateContainerGo m sE true pages rem tok acc).1.migrated +
          (migrateContainerGo m sE true pages rem tok acc).1.skipped +
          (migrateContainerGo m sE true pages rem tok acc).1.failed := by
  intro rem
  induction rem with
  | zero => intro tok acc h; exact h
  | succ r ih =>
    intro tok acc h
    rcases hfn : fetchNext pages tok with ⟨docs, nxt⟩
    have hbatch := migrateBatch_sum m sE docs
    by_cases hlen : docs.length > 0
    · cases nxt with
      | some t =>
        simp only [migrateContainerGo, hfn, if_pos hlen, hbatch.2]
        exact ih (some t) _ (by have := hbatch.1; dsimp; omega)
      | none =>
        simp only [migrateContainerGo, hfn, if_pos hlen, hbatch.2]
        have := hbatch.1
        omega
    · cases nxt with
      | some t =>
        simp only [migrateContainerGo, hfn, if_neg hlen]
        exact ih (some t) acc h
      | none =>
        simp only [migrateContainerGo, hfn, if_neg hlen]
        exact h

/-- The counter identity holds for a whole `migrateContainer` run with
`continueOnError` on. -/
lemma migrateContainer_inv (m : Nat) (sE : Bool) (pages : List (List DocBehavior)) :
    (migrateContainer m sE true pages).1.total =
      (migrateContainer m sE true pages).1.migrated +
        (migrateContainer m sE true pages).1.skipped +
        (migrateContainer m sE true pages).1.failed :=
  migrateContainerGo_inv m sE pages (pages.length + 1) none ⟨0, 0, 0, 0⟩ rfl

/-- The run-level aggregation of `migrateDatabase` preserves the counter
identity. -/
lemma migrateDatabase_inv (m : Nat) (sE : Bool) (containers : List ContainerBehavior) :
    (migrateDatabase m sE true containers).total =
      (migrateDatabase m sE true containers).migrated +
        (migrateDatabase m sE true containers).skipped +
        (migrateDatabase m sE true containers).failed := by
  unfold migrateDatabase
  suffices h : ∀ (cs : List ContainerBehavior) (acc : ContainerStats),
      acc.total = acc.migrated + acc.skipped + acc.failed →
      (cs.foldl (fun acc c =>
        if c.targetExists then
          let (s, _, _) := migrateContainer m sE true c.pages
          ⟨acc.total + s.total, acc.migrated + s.migrated,
           acc.failed + s.failed, acc.skipped + s.skipped⟩
        else acc) acc).total =
        (cs.foldl _ acc).migrated + (cs.foldl _ acc).skipped + (cs.foldl _ acc).failed by
    exact h containers ⟨0, 0, 0, 0⟩ rfl
  intro cs
  induction cs with
  | nil => intro acc h; exact h
  | cons c rest ih =>
    intro acc h
    rw [List.foldl_cons]
    cases hex : c.targetExists with
    | false =>
      simp only [hex, Bool.false_eq_true, if_false]
      exact ih acc h
    | true =>
      rcases hmc : migrateContainer m sE true c.pages with ⟨s, evs, th⟩
      simp only [hex, if_true, hmc]
      refine ih _ ?_
      have hs : s.total = s.migrated + s.skipped + s.failed := by
        have hinv := migrateContainer_inv m sE c.pages
        rw [hmc] at hinv
        exact hinv
      dsimp
      omega

/-- The continuation tokens of the read events of a trace, in order. -/
def readTokens (evs : List PageEvent) : List (Option Nat) :=
  evs.filterMap (fun e => match e with | .read t => some t | .execute _ => none)

/-- The document-id lists handed to `_migrateBatch`, in order. -/
def executePages (evs : List PageEvent) : List (List Nat) :=
  evs.filterMap (fun e => match e with | .read _ => none | .execute l => some l)

/-- The execute events the reader produces for page `idx`: one
`_migrateBatch` call when the page is non-empty, none otherwise. -/
def expectedExec (pages : List (List DocBehavior)) (idx : Nat) : List PageEvent :=
  if 0 < (pages.getD idx []).length then
    [.execute ((pages.getD idx []).map DocBehavior.id)]
  else []

/-- The events of one non-initial loop iteration: the read re-issuing the
cursor `idx` returned by the previous read, then the execute call for
page `idx` when it is non-empty. -/
def expectedChunk (pages : List (List DocBehavior)) (idx : Nat) : List PageEvent :=
  .read (some idx) :: expectedExec pages idx

/-- `expectedExec` at a non-empty page. -/
lemma expectedExec_pos (pages : List (List DocBehavior)) (idx : Nat)
    (h : 0 < (pages.getD idx []).length) :
    expectedExec pages idx = [.execute ((pages.getD idx []).map DocBehavior.id)] := if_pos h

/-- `expectedExec` at an empty page. -/
lemma expectedExec_neg (pages : List (List DocBehavior)) (idx : Nat)
    (h : ¬ 0 < (pages.getD idx []).length) :
    expectedExec pages idx = [] := if_neg h

/-- One-step unfolding of the `migrateContainer` read loop at positive
fuel. -/
lemma containerGo_succ (m : Nat) (sE co : Bool) (pages : List (List DocBehavior))
    (r : Nat) (tok : Option Nat) (acc : ContainerStats) :
    migrateContainerGo m sE co pages (r + 1) tok acc =
      (let (documents, nextToken) := fetchNext pages tok
       if documents.length > 0 then
         let br := migrateBatch m sE co documents
         match br.thrown with
         | some e => (acc, [.read tok, .execute (documents.map DocBehavior.id)], some e)
         | none =>
           let acc' : ContainerStats :=
             ⟨acc.total + documents.length, acc.migrated + br.migrated,
              acc.failed + br.failed, acc.skipped + br.skipped⟩
           match nextToken with
           | some t =>
             let (s, evs, th) :=
               migrateContainerGo m sE co pages r (some t) acc'
             (s, .read tok :: .execute (documents.map DocBehavior.id) :: evs, th)
           | none => (acc', [.read tok, .execute (documents.map DocBehavior.id)], none)
       else
         match nextToken with
         | some t =>
           let (s, evs, th) := migrateContainerGo m sE co pages r (some t) acc
           (s, .read tok :: evs, th)
         | none => (acc, [.read tok], none)) := rfl

/-- The full observable behaviour of the `migrateContainer` read loop
with `continueOnError` on, entered at cursor `tok` with `j` pages left
(`j + 1` fuel): it never throws, its trace is the read at `tok` followed
by that page's execute (if non-empty) and then one chunk per remaining
page, its reads re-issue each returned cursor exactly once, and its
execute calls are exactly the non-empty remaining pages in order. -/
lemma migrateContainerGo_trace (m : Nat) (sE : Bool) (pages : List (List DocBehavior)) :
    ∀ (j : Nat) (tok : Option Nat) (acc : ContainerStats),
      tok.getD 0 + j = pages.length → 1 ≤ j →
      (migrateContainerGo m sE true pages (j + 1) tok acc).2.2 = none
      ∧ (migrateContainerGo m sE true pages (j + 1) tok acc).2.1 =
          .read tok :: (expectedExec pages (tok.getD 0)
            ++ ((List.range' (tok.getD 0 + 1) (j - 1)).map (expectedChunk pages)).flatten)
      ∧ readTokens (migrateContainerGo m sE true pages (j + 1) tok acc).2.1 =
          tok :: (List.range' (tok.getD 0 + 1) (j - 1)).map some
      ∧ executePages (migrateContainerGo m sE true pages (j + 1) tok acc).2.1 =
          ((pages.drop (tok.getD 0)).filter (fun p => decide (0 < p.length))).map
            (fun p => p.map DocBehavior.id) := by
  intro j
  induction j with
  | zero => omega
  | succ k ih =>
    intro tok acc hsum _
    set i := tok.getD 0 with hi
    have hilt : i < pages.length := by omega
    obtain ⟨P, hP⟩ : ∃ P, pages.getD i [] = P := ⟨_, rfl⟩
    have hdrop : pages.drop i = P :: pages.drop (i + 1) := by
      rw [← hP, List.getD_eq_getElem pages [] hilt]
      exact List.drop_eq_getElem_cons hilt
    have hfn : fetchNext pages tok =
        (P, if i + 1 < pages.length then some (i + 1) else none) := by
      rw [← hP]; rfl
    have hbatch := migrateBatch_sum m sE P
    cases k with
    | zero =>
      have hnxt : ¬ i + 1 < pages.length := by omega
      have hdrop2 : pages.drop (i + 1) = [] := List.drop_eq_nil_of_le (by omega)
      by_cases hne : P = []
      · have hngt : ¬ P.length > 0 := by rw [hne]; simp
        simp only [migrateContainerGo, hfn, if_neg hngt, if_neg hnxt]
        refine ⟨trivial, ?_, ?_, ?_⟩
        · rw [expectedExec_neg pages i (by rw [hP]; exact hngt)]
          rfl
        · simp [readTokens]
        · rw [hdrop, hdrop2, hne]
          simp [executePages]
      · have hgt : P.length > 0 := by
          cases hp : P with
          | nil => exact absurd hp hne
          | cons a l => simp [hp]
        have hc : decide (0 < P.length) = true := decide_eq_true hgt
        simp only [migrateContainerGo, hfn, if_pos hgt, hbatch.2, if_neg hnxt]
        refine ⟨trivial, ?_, ?_, ?_⟩
        · rw [expectedExec_pos pages i (by rw [hP]; exact hgt), hP]
          rfl
        · simp [readTokens]
        · rw [hdrop, hdrop2]
          simp [executePages, List.filter_cons, hc]
    | succ k' =>
      have hnxt : i + 1 < pages.length := by omega
      simp only [Nat.add_sub_cancel]
      have hrecall : ∀ acc' : ContainerStats,
          (migrateContainerGo m sE true pages (k' + 2) (some (i + 1)) acc').2.2 = none
          ∧ (migrateContainerGo m sE true pages (k' + 2) (some (i + 1)) acc').2.1 =
              .read (some (i + 1)) :: (expectedExec pages (i + 1)
                ++ ((List.range' (i + 2) k').map (expectedChunk pages)).flatten)
          ∧ readTokens (migrateContainerGo m sE true pages (k' + 2) (some (i + 1)) acc').2.1 =
              some (i + 1) :: (List.range' (i + 2) k').map some
          ∧ executePages
                (migrateContainerGo m sE true pages (k' + 2) (some (i + 1)) acc').2.1 =
              ((pages.drop (i + 1)).filter (fun p => decide (0 < p.length))).map
                (fun p => p.map DocBehavior.id) := by
        intro acc'
        have := ih (some (i + 1)) acc' (by simp only [Option.getD_some]; omega) (by omega)
        simpa only [Option.getD_some, Nat.add_sub_cancel] using this
      by_cases hne : P = []
      · have hngt : ¬ P.length > 0 := by rw [hne]; simp
        rw [containerGo_succ, hfn]
        dsimp only
        rw [if_neg hngt, if_pos hnxt]
        dsimp only
        rcases hgo : migrateContainerGo m sE true pages (k' + 2) (some (i + 1)) acc
          with ⟨s', evs', th'⟩
        have hrec := hrecall acc
        rw [hgo] at hrec
        obtain ⟨h1, h2, h3, h4⟩ := hrec
        refine ⟨h1, ?_, ?_, ?_⟩
        · rw [h2, expectedExec_neg pages i (by rw [hP]; exact hngt), List.range'_succ,
            List.map_cons, List.flatten_cons]
          simp only [expectedChunk]
          rfl
        · simp only [readTokens] at h3 ⊢
          simp only [List.filterMap_cons]
          rw [h3, List.range'_succ, List.map_cons]
        · simp only [executePages] at h4 ⊢
          simp only [List.filterMap_cons]
          rw [h4, hdrop, hne]
          simp
      · have hgt : P.length > 0 := by
          cases hp : P with
          | nil => exact absurd hp hne
          | cons a l => simp [hp]
        have hc : decide (0 < P.length) = true := decide_eq_true hgt
        rw [containerGo_succ, hfn]
        dsimp only
        rw [if_pos hgt, hbatch.2]
        dsimp only
        rw [if_pos hnxt]
        dsimp only
        rcases hgo : migrateContainerGo m sE true pages (k' + 2) (some (i + 1))
            ⟨acc.total + P.length,
             acc.migrated + (migrateBatch m sE true P).migrated,
             acc.failed + (migrateBatch m sE true P).failed,
             acc.skipped + (migrateBatch m sE true P).skipped⟩
          with ⟨s', evs', th'⟩
        have hrec := hrecall ⟨acc.total + P.length,
             acc.migrated + (migrateBatch m sE true P).migrated,
             acc.failed + (migrateBatch m sE true P).failed,
             acc.skipped + (migrateBatch m sE true P).skipped⟩
        rw [hgo] at hrec
        obtain ⟨h1, h2, h3, h4⟩ := hrec
        refine ⟨h1, ?_, ?_, ?_⟩
        · rw [h2, expectedExec_pos pages i (by rw [hP]; exact hgt), hP, List.range'_succ,
            List.map_cons, List.flatten_cons]
          simp only [expectedChunk]
          rfl
        · simp only [readTokens] at h3 ⊢
          simp only [List.filterMap_cons]
          rw [h3, List.range'_succ, List.map_cons]
        · simp only [executePages] at h4 ⊢
          simp only [List.filterMap_cons]
          rw [h4, hdrop]
          simp [List.filter_cons, hc]

/-- The reader behaviour for a whole `migrateContainer` run with
`continueOnError` on. -/
lemma migrateContainer_trace (m : Nat) (sE : Bool) (pages : List (List DocBehavior)) :
    (migrateContainer m sE true pages).2.2 = none
    ∧ (migrateContainer m sE true pages).2.1 =
        .read none :: (expectedExec pages 0
          ++ ((List.range' 1 (pages.length - 1)).map (expectedChunk pages)).flatten)
    ∧ readTokens (migrateContainer m sE true pages).2.1 =
        none :: (List.range' 1 (pages.length - 1)).map some
    ∧ executePages (migrateContainer m sE true pages).2.1 =
        (pages.filter (fun p => decide (0 < p.length))).map
          (fun p => p.map DocBehavior.id) := by
  rcases pages with _ | ⟨p, ps⟩
  · exact ⟨rfl, rfl, rfl, rfl⟩
  · have h := migrateContainerGo_trace m sE (p :: ps) (p :: ps).length none ⟨0, 0, 0, 0⟩
      (by simp) (by simp)
    simpa only [migrateContainer, Option.getD_none, List.drop_zero, Nat.zero_add] using h

/-- `_migrateBlob` with `skipExisting` off equals the bare retry loop. -/
lemma migrateBlob_skipOff (m : Nat) (co : Bool) (probe body : Nat → Result) :
    migrateBlob m false co probe body = executeQueueAction m co body :=
  blobGo_skipOff m co probe body (m + 1) 0

/-- A first-attempt success of the copy body migrates the blob at once. -/
lemma migrateBlob_ok (m : Nat) (co : Bool) (probe body : Nat → Result)
    (h : body 0 = Result.ok) :
    migrateBlob m false co probe body = ⟨1, 0, 0, [], 1, [], none⟩ := by
  rw [migrateBlob, blobGo_succ, if_neg (by simp), h]

/-- The queue-action retry loop on an always-failing body, entered at the
top. -/
lemma executeQueueAction_failing (m : Nat) (co : Bool) (code : Nat → Nat) :
    executeQueueAction m co (fun i => Result.err (code i)) =
      ⟨0, 0, 1, [code m], m + 1, (List.range m).map (fun i => 1000 * (i + 1)),
       if co then none else some (code m)⟩ := by
  rw [executeQueueAction, queueGo_failing m co code (m + 1) 0 (by omega) (by omega)]
  simp only [Nat.add_sub_cancel, ItemTrace.mk.injEq, true_and, and_true]
  exact List.map_congr_left fun i _ => by omega

/-- `_migrateBlob` on an always-failing copy body. -/
lemma migrateBlob_failing (m : Nat) (co : Bool) (probe : Nat → Result) (code : Nat → Nat) :
    migrateBlob m false co probe (fun i => Result.err (code i)) =
      ⟨0, 0, 1, [code m], m + 1, (List.range m).map (fun i => 1000 * (i + 1)),
       if co then none else some (code m)⟩ := by
  rw [migrateBlob_skipOff, executeQueueAction_failing]

/-- Folding `settleBlob` over a run of blobs whose copy body succeeds at
once only increments `migrated` and the attempt count. -/
lemma blobFold_allOk (m : Nat) (co : Bool) :
    ∀ (l : List BlobBehavior) (acc : BlobRunStats), (∀ b ∈ l, b.body 0 = Result.ok) →
      l.foldl (settleBlob m false co) acc =
        ⟨acc.migrated + l.length, acc.skipped, acc.failed, acc.errors,
         acc.itemsAttempted + l.length⟩ := by
  intro l
  induction l with
  | nil => intro acc _; simp
  | cons b rest ih =>
    intro acc hall
    rw [List.foldl_cons]
    have hb : settleBlob m false co acc b =
        ⟨acc.migrated + 1, acc.skipped, acc.failed, acc.errors, acc.itemsAttempted + 1⟩ := by
      rw [settleBlob, migrateBlob_ok m co b.probe b.body (hall b (List.mem_cons_self b rest))]
      simp
    rw [hb, ih _ (fun x hx => hall x (List.mem_cons_of_mem b hx))]
    simp only [BlobRunStats.mk.injEq, List.length_cons, true_and, and_true]
    constructor <;> omega

/-- Monotone images of `List.range` are sorted non-decreasingly. -/
lemma pairwiseLe_map_range (f : Nat → Nat) (hf : ∀ i j : Nat, i < j → f i ≤ f j) (n : Nat) :
    ((List.range n).map f).Pairwise (· ≤ ·) := by
  rw [List.pairwise_map]
  exact (List.pairwise_lt_range n).imp (fun h => hf _ _ h)

/-- `map.has(k)` on a queue map holds exactly when some entry bears the
name `k`. -/
lemma hasName_iff (l : List QueueRecord) (k : String) :
    hasName l k = true ↔ ∃ q ∈ l, q.name = k := by
  simp [hasName, List.any_eq_true, beq_iff_eq]

/-- Membership in the planner's `create` list: source names absent from
the destination. -/
lemma planCreate_mem (pm : Bool) (S D : List QueueRecord) (k : String) :
    k ∈ (planQueueActions pm S D).create.map QueueRecord.name ↔
      k ∈ S.map QueueRecord.name ∧ k ∉ D.map QueueRecord.name := by
  simp only [planQueueActions, List.mem_map, List.mem_filter]
  constructor
  · rintro ⟨q, ⟨hqS, hflt⟩, rfl⟩
    rw [Bool.not_eq_true'] at hflt
    refine ⟨⟨q, hqS, rfl⟩, fun hk => ?_⟩
    have hh := (hasName_iff D q.name).mpr hk
    rw [hflt] at hh
    exact Bool.false_ne_true hh
  · rintro ⟨⟨q, hqS, rfl⟩, hkD⟩
    refine ⟨q, ⟨hqS, ?_⟩, rfl⟩
    rw [Bool.not_eq_true']
    cases hh : hasName D q.name
    · rfl
    · exact absurd ((hasName_iff D q.name).mp hh) hkD

/-- Membership in the planner's `update` list: names present on both
sides for which `_shouldUpdateQueue` reports a difference. -/
lemma planUpdate_mem (pm : Bool) (S D : List QueueRecord) (k : String) :
    k ∈ (planQueueActions pm S D).update.map UpdateAction.name ↔
      ∃ s ∈ S, s.name = k ∧ ∃ d, getName D k = some d ∧
        shouldUpdateQueue pm s d = true := by
  simp only [planQueueActions, List.mem_map, List.mem_filterMap]
  constructor
  · rintro ⟨u, ⟨q, hqS, hq⟩, rfl⟩
    cases hget : getName D q.name with
    | none => rw [hget] at hq; cases hq
    | some d =>
      rw [hget] at hq
      dsimp only at hq
      by_cases hupd : shouldUpdateQueue pm q d = true
      · rw [if_pos hupd] at hq
        injection hq with hq'
        subst hq'
        exact ⟨q, hqS, rfl, d, hget, hupd⟩
      · rw [if_neg hupd] at hq; cases hq
  · rintro ⟨s, hsS, rfl, d, hget, hupd⟩
    refine ⟨⟨s.name, s, d⟩, ⟨s, hsS, ?_⟩, rfl⟩
    rw [hget]
    dsimp only
    rw [if_pos hupd]

/-- Membership in the planner's `delete` list: destination names absent
from the source. -/
lemma planDelete_mem (pm : Bool) (S D : List QueueRecord) (k : String) :
    k ∈ (planQueueActions pm S D).delete.map QueueRecord.name ↔
      k ∈ D.map QueueRecord.name ∧ k ∉ S.map QueueRecord.name := by
  simp only [planQueueActions, List.mem_map, List.mem_filter]
  constructor
  · rintro ⟨q, ⟨hqD, hflt⟩, rfl⟩
    rw [Bool.not_eq_true'] at hflt
    refine ⟨⟨q, hqD, rfl⟩, fun hk => ?_⟩
    have hh := (hasName_iff S q.name).mpr hk
    rw [hflt] at hh
    exact Bool.false_ne_true hh
  · rintro ⟨⟨q, hqD, rfl⟩, hkS⟩
    refine ⟨q, ⟨hqD, ?_⟩, rfl⟩
    rw [Bool.not_eq_true']
    cases hh : hasName S q.name
    · rfl
    · exact absurd ((hasName_iff S q.name).mp hh) hkS

/-- With preservation on, the delete phase of `synchronizeQueues` issues
no deletion and counts every planned delete as skipped. -/
lemma deletePhase_preserve (l : List QueueRecord) :
    synchronizeQueuesDeletePhase true l = ([], l.length) := by
  by_cases h : l.length > 0
  · simp [synchronizeQueuesDeletePhase, h]
  · simp [synchronizeQueuesDeletePhase, h]
    omega

/-- The queue snapshots of the spec's concrete scenario:
`S = {a:{tag:x}, b:{tag:y}}`. -/
def scenarioSource : List QueueRecord := [⟨"a", [("tag", "x")]⟩, ⟨"b", [("tag", "y")]⟩]

/-- `D = {b:{tag:z}, c:{tag:w}}`. -/
def scenarioDestination : List QueueRecord := [⟨"b", [("tag", "z")]⟩, ⟨"c", [("tag", "w")]⟩]

/-! ### Claim theorems -/

/-- C1, counterexample: the claim says the delay before retry attempt n
is `2 ^ (n-1)` time units in the blob path as well, but `_migrateBlob`
(blob-migrator.js line 265) sleeps `1000 * retries` — linear backoff.
With `maxRetries = 3` and an always-retryable error (429), the delays
are 1000, 2000, 3000 ms; the claimed schedule would be 1000, 2000,
4000 ms, so the third delay differs. -/
theorem c1_counterexample :
    (migrateBlob 3 false true (fun _ => Result.err 1) (fun _ => Result.err 429)).delays =
      [1 * 1000, 2 * 1000, 3 * 1000]
    ∧ (migrateBlob 3 false true (fun _ => Result.err 1) (fun _ => Result.err 429)).delays ≠
      [2 ^ 0 * 1000, 2 ^ 1 * 1000, 2 ^ 2 * 1000] := by
  constructor <;> decide

/-- C1, amended: for an item whose apply attempts always fail retryably,
the delay before retry attempt n (1-indexed) is `2 ^ (n-1)` seconds in
the document path (`_createDocumentWithRetry`), but `n` seconds (linear
backoff `1000 * retries` ms) in the blob path (`_migrateBlob`) and the
queue path (the `_execute*Actions` retry loops). -/
theorem c1_amended (m : Nat) (code : Nat → Nat) (probe : Nat → Result)
    (hret : ∀ i, isRetryableError (code i) = true) :
    (createDocumentWithRetry m (fun i => Result.err (code i))).delays =
        (List.range m).map (fun i => 2 ^ i * 1000)
    ∧ (migrateBlob m false true probe (fun i => Result.err (code i))).delays =
        (List.range m).map (fun i => 1000 * (i + 1))
    ∧ (executeQueueAction m true (fun i => Result.err (code i))).delays =
        (List.range m).map (fun i => 1000 * (i + 1)) := by
  refine ⟨?_, ?_, ?_⟩
  · rw [createDocumentWithRetry, createGo_retryable code hret m 0]
    exact List.map_congr_left fun i _ => by rw [Nat.zero_add]
  · rw [migrateBlob_failing]
  · rw [executeQueueAction_failing]

/-- C1, witness for the amended theorem at `maxRetries = 3`, error code
429 on every attempt. -/
theorem c1_amended_witness :
    isRetryableError 429 = true
    ∧ (createDocumentWithRetry 3 (fun _ => Result.err 429)).delays = [1000, 2000, 4000]
    ∧ (migrateBlob 3 false true (fun _ => Result.err 1)
        (fun _ => Result.err 429)).delays = [1000, 2000, 3000] := by
  refine ⟨by decide, ?_, ?_⟩
  · rw [(c1_amended 3 (fun _ => 429) (fun _ => Result.err 1) (fun _ => rfl)).1]
    decide
  · rw [(c1_amended 3 (fun _ => 429) (fun _ => Result.err 1) (fun _ => rfl)).2.1]
    decide

/-- C7: the error classifier `_isRetryableError` reports retryable
exactly for status 429 and the 5xx range 500-599; any other code is
terminal, and a terminal error makes `_createDocumentWithRetry` rethrow
after a single attempt with no sleep (not retried). -/
theorem c7_error_classifier :
    (∀ code : Nat, isRetryableError code = true ↔
      (code = 429 ∨ (500 ≤ code ∧ code ≤ 599)))
    ∧ (∀ (apply : Nat → Result) (m rc c : Nat), apply rc = Result.err c →
        isRetryableError c = false →
        createDocumentWithRetryGo apply m rc = ⟨1, [], Result.err c⟩) := by
  constructor
  · intro code
    simp only [isRetryableError, Bool.or_eq_true, beq_iff_eq, Bool.and_eq_true,
      decide_eq_true_eq]
    omega
  · intro apply m rc c happ hc
    exact createGo_terminal apply m rc c happ hc

/-- C7, witness: 400 is terminal and the create is attempted exactly
once. -/
theorem c7_witness :
    isRetryableError 400 = false
    ∧ createDocumentWithRetry 3 (fun _ => Result.err 400) = ⟨1, [], Result.err 400⟩ :=
  ⟨by decide, c7_error_classifier.2 (fun _ => Result.err 400) 3 0 400 rfl (by decide)⟩

/-- C3: an item whose apply function always fails retryably is attempted
exactly `maxRetries + 1` times with non-decreasing inter-attempt delays,
and is then recorded as failed exactly once — one failure increment and
one error entry — in both the document path (`_createDocumentWithRetry`
inside `_migrateBatch`) and the blob path (`_migrateBlob`). -/
theorem c3_retry_bound (m : Nat) (code : Nat → Nat)
    (hret : ∀ i, isRetryableError (code i) = true) :
    (createDocumentWithRetry m (fun i => Result.err (code i))).attempts = m + 1
    ∧ (createDocumentWithRetry m (fun i => Result.err (code i))).delays.Pairwise (· ≤ ·)
    ∧ (∀ (co : Bool) (d : DocBehavior), (∀ i, d.create i = Result.err (code i)) →
        migrateBatch m false co [d] =
          ⟨0, 0, 1, [d.id], [d.id], if co then none else some d.id⟩)
    ∧ (∀ (co : Bool) (probe : Nat → Result),
        (migrateBlob m false co probe (fun i => Result.err (code i))).attempts = m + 1
        ∧ (migrateBlob m false co probe
            (fun i => Result.err (code i))).delays.Pairwise (· ≤ ·)
        ∧ (migrateBlob m false co probe (fun i => Result.err (code i))).failed = 1
        ∧ (migrateBlob m false co probe (fun i => Result.err (code i))).errors.length = 1) := by
  have hcreate := createGo_retryable code hret m 0
  refine ⟨?_, ?_, ?_, ?_⟩
  · rw [createDocumentWithRetry, hcreate]
  · rw [createDocumentWithRetry, hcreate]
    exact pairwiseLe_map_range _ (fun i j hij => by
      exact Nat.mul_le_mul_right 1000 (Nat.pow_le_pow_right (by omega) (by omega))) m
  · intro co d hd
    have hdoc : migrateDoc m false d = ⟨.failed, m + 1⟩ := by
      have hfun : d.create = fun i => Result.err (code i) := funext hd
      simp only [migrateDoc, Bool.false_eq_true, if_false, attemptCreate,
        createDocumentWithRetry, hfun, hcreate]
    cases co with
    | true => simp [migrateBatch, hdoc]
    | false => simp [migrateBatch, hdoc]
  · intro co probe
    rw [migrateBlob_failing]
    refine ⟨rfl, ?_, rfl, rfl⟩
    exact pairwiseLe_map_range _ (fun i j hij => by omega) m

/-- C3, witness at `maxRetries = 2`, error 429 on every attempt. -/
theorem c3_witness :
    isRetryableError 429 = true
    ∧ (createDocumentWithRetry 2 (fun _ => Result.err 429)).attempts = 3
    ∧ (createDocumentWithRetry 2 (fun _ => Result.err 429)).delays.Pairwise (· ≤ ·)
    ∧ migrateBatch 2 false true [⟨7, Result.err 404, fun _ => Result.err 429⟩] =
        ⟨0, 0, 1, [7], [7], none⟩
    ∧ (migrateBlob 2 false true (fun _ => Result.err 1)
        (fun _ => Result.err 429)).attempts = 3 := by
  have h := c3_retry_bound 2 (fun _ => 429) (fun _ => rfl)
  refine ⟨by decide, h.1, h.2.1, ?_, (h.2.2.2 true (fun _ => Result.err 1)).1⟩
  have hb := h.2.2.1 true ⟨7, Result.err 404, fun _ => Result.err 429⟩ (fun _ => rfl)
  simpa using hb

/-- C6: with `skipExisting` on, an item whose destination probe reports
existence is recorded as skipped and its create/copy step is never
invoked (zero create attempts), in both the document path
(`_migrateBatch`) and the blob path (`_migrateBlob`); a not-found (404)
probe result is a normal negative signal — migration proceeds and a
first-attempt create success records the item as migrated. -/
theorem c6_skip_existing :
    (∀ (m : Nat) (d : DocBehavior), d.probe = Result.ok →
        migrateDoc m true d = ⟨DocOutcome.skipped, 0⟩)
    ∧ (∀ (m : Nat) (d : DocBehavior), d.probe = Result.err 404 →
        migrateDoc m true d = attemptCreate m d
        ∧ (d.create 0 = Result.ok → migrateDoc m true d = ⟨DocOutcome.migrated, 1⟩))
    ∧ (∀ (m : Nat) (co : Bool) (probe body : Nat → Result), probe 0 = Result.ok →
        migrateBlob m true co probe body = ⟨0, 1, 0, [], 0, [], none⟩)
    ∧ (∀ (m : Nat) (co : Bool) (probe body : Nat → Result),
        probe 0 = Result.err 404 → body 0 = Result.ok →
        migrateBlob m true co probe body = ⟨1, 0, 0, [], 1, [], none⟩) := by
  refine ⟨?_, ?_, ?_, ?_⟩
  · intro m d hp
    simp [migrateDoc, hp]
  · intro m d hp
    constructor
    · simp [migrateDoc, hp]
    · intro hc
      exact migrateDoc_ok m true d hc (fun _ => hp)
  · intro m co probe body hp
    rw [migrateBlob, blobGo_succ, if_pos ⟨rfl, hp⟩]
  · intro m co probe body hp hb
    rw [migrateBlob, blobGo_succ, if_neg (by simp [hp]), hb]

/-- C6, witness: a document and a blob that exist in the destination are
skipped without a create attempt; not-found probes proceed to a
successful migration. -/
theorem c6_witness :
    migrateDoc 3 true ⟨1, Result.ok, fun _ => Result.ok⟩ = ⟨DocOutcome.skipped, 0⟩
    ∧ migrateDoc 3 true ⟨2, Result.err 404, fun _ => Result.ok⟩ = ⟨DocOutcome.migrated, 1⟩
    ∧ migrateBlob 3 true true (fun _ => Result.ok) (fun _ => Result.err 400) =
        ⟨0, 1, 0, [], 0, [], none⟩
    ∧ migrateBlob 3 true true (fun _ => Result.err 404) (fun _ => Result.ok) =
        ⟨1, 0, 0, [], 1, [], none⟩ :=
  ⟨c6_skip_existing.1 3 ⟨1, Result.ok, fun _ => Result.ok⟩ rfl,
   (c6_skip_existing.2.1 3 ⟨2, Result.err 404, fun _ => Result.ok⟩ rfl).2 rfl,
   c6_skip_existing.2.2.1 3 true (fun _ => Result.ok) (fun _ => Result.err 400) rfl,
   c6_skip_existing.2.2.2 3 true (fun _ => Result.err 404) (fun _ => Result.ok) rfl rfl⟩

/-- A document whose create succeeds at the first attempt (probe reports
not-found, relevant only when `skipExisting` is on). -/
def okCreateDoc (n : Nat) : DocBehavior := ⟨n, Result.err 404, fun _ => Result.ok⟩

/-- A document whose create always fails with code `c`. -/
def badCreateDoc (n c : Nat) : DocBehavior := ⟨n, Result.err 404, fun _ => Result.err c⟩

/-- A blob whose copy succeeds at the first attempt. -/
def okBlob : BlobBehavior := ⟨fun _ => Result.err 404, fun _ => Result.ok⟩

/-- A blob whose copy always fails with code `c`. -/
def badBlob (c : Nat) : BlobBehavior := ⟨fun _ => Result.err 404, fun _ => Result.err c⟩

/-- C2, counterexample: in the blob path a batch is awaited with
`Promise.allSettled` (blob-migrator.js lines 188-189), which records a
rejected `_migrateBlob` promise as settled and never rejects itself.
With `continueOnError = false`, `maxRetries = 0` and a batch whose first
blob fails terminally (400) while the second succeeds, the second blob —
after item K — is still attempted (both items run, `itemsAttempted = 2`)
and the failure does not propagate: the run returns normal statistics
instead of raising.  The claim's `continueOnError = false` clause is
false for this path. -/
theorem c2_counterexample :
    migrateContainerBlobBatches 0 false false [[badBlob 400, okBlob]] =
      ⟨1, 0, 1, [400], 2⟩
    ∧ (migrateContainerBlobBatches 0 false false [[badBlob 400, okBlob]]).itemsAttempted ≠ 1 := by
  constructor <;> decide

/-- C2, amended: in the document path the claim holds as stated: with
`continueOnError = true` every document of the batch is attempted and
exactly one failure is recorded; with `continueOnError = false` the
failure propagates out of `_migrateBatch` and the documents after item K
are never attempted.  In the blob path the blobs of a batch run together
under `Promise.allSettled`: with either setting all N blobs are
attempted and exactly one failure is recorded, and the
`continueOnError = false` rethrow is swallowed, propagating nothing. -/
theorem c2_amended (m ec : Nat) (hec : isRetryableError ec = false) :
    (∀ (pre post : List DocBehavior) (bad : DocBehavior),
        (∀ d ∈ pre, d.create 0 = Result.ok) → (∀ d ∈ post, d.create 0 = Result.ok) →
        bad.create 0 = Result.err ec →
        migrateBatch m false true (pre ++ bad :: post) =
          ⟨pre.length + post.length, 0, 1, [bad.id],
           (pre ++ bad :: post).map DocBehavior.id, none⟩
        ∧ migrateBatch m false false (pre ++ bad :: post) =
          ⟨pre.length, 0, 1, [bad.id], pre.map DocBehavior.id ++ [bad.id], some bad.id⟩)
    ∧ (∀ (co : Bool) (bpre bpost : List BlobBehavior) (bbad : BlobBehavior),
        (∀ b ∈ bpre, b.body 0 = Result.ok) → (∀ b ∈ bpost, b.body 0 = Result.ok) →
        (∀ i, bbad.body i = Result.err ec) →
        migrateContainerBlobBatches m false co [bpre ++ bbad :: bpost] =
          ⟨bpre.length + bpost.length, 0, 1, [ec],
           bpre.length + 1 + bpost.length⟩) := by
  constructor
  · intro pre post bad hpre hpost hbad
    have hmig : ∀ (l : List DocBehavior), (∀ d ∈ l, d.create 0 = Result.ok) →
        ∀ d ∈ l, (migrateDoc m false d).outcome = .migrated := by
      intro l hl d hd
      rw [migrateDoc_ok m false d (hl d hd) (fun h => absurd h (by decide))]
    have hbaddoc : migrateDoc m false bad = ⟨.failed, 1⟩ :=
      migrateDoc_terminal m false bad ec hbad hec (fun h => absurd h (by decide))
    constructor
    · rw [migrateBatch_append_migrated m false true pre (bad :: post) (hmig pre hpre)]
      simp only [migrateBatch, hbaddoc, if_true]
      rw [migrateBatch_all_migrated m false true post (hmig post hpost)]
      simp [Nat.add_comm, List.map_append]
    · rw [migrateBatch_append_migrated m false false pre (bad :: post) (hmig pre hpre)]
      simp only [migrateBatch, hbaddoc, Bool.false_eq_true, if_false]
      simp [Nat.add_comm]
  · intro co bpre bpost bbad hbpre hbpost hbbad
    have hfun : bbad.body = fun i => Result.err ((fun _ => ec) i) := funext hbbad
    rw [migrateContainerBlobBatches, List.foldl_cons, List.foldl_nil, List.foldl_append,
      blobFold_allOk m co bpre _ hbpre, List.foldl_cons]
    have hsettle : settleBlob m false co
        ⟨0 + bpre.length, 0, 0, [], 0 + bpre.length⟩ bbad =
        ⟨bpre.length, 0, 1, [ec], bpre.length + 1⟩ := by
      rw [settleBlob, hfun, migrateBlob_failing m co bbad.probe (fun _ => ec)]
      simp
    rw [hsettle, blobFold_allOk m co bpost _ hbpost]

/-- C2, witness: a three-item batch whose middle item fails terminally
(400), at `maxRetries = 1`, in both paths and both settings. -/
theorem c2_witness :
    isRetryableError 400 = false
    ∧ migrateBatch 1 false true [okCreateDoc 1, badCreateDoc 2 400, okCreateDoc 3] =
        ⟨2, 0, 1, [2], [1, 2, 3], none⟩
    ∧ migrateBatch 1 false false [okCreateDoc 1, badCreateDoc 2 400, okCreateDoc 3] =
        ⟨1, 0, 1, [2], [1, 2], some 2⟩
    ∧ migrateContainerBlobBatches 1 false false [[okBlob, badBlob 400, okBlob]] =
        ⟨2, 0, 1, [400], 3⟩ := by
  have h := c2_amended 1 400 (by decide)
  have hdoc := h.1 [okCreateDoc 1] [okCreateDoc 3] (badCreateDoc 2 400)
    (fun d hd => by rw [List.mem_singleton.mp hd]; rfl)
    (fun d hd => by rw [List.mem_singleton.mp hd]; rfl) rfl
  have hblob := h.2 false [okBlob] [okBlob] (badBlob 400)
    (fun b hb => by rw [List.mem_singleton.mp hb]; rfl)
    (fun b hb => by rw [List.mem_singleton.mp hb]; rfl) (fun _ => rfl)
  exact ⟨by decide, by simpa using hdoc.1, by simpa using hdoc.2, by simpa using hblob⟩

/-- C9, counterexample: the claim says each page's items are handed to
the batch executor in one execute call before the next read, but
`migrateContainer` only calls `_migrateBatch` when `documents.length >
0` (data-migrator.js line 115).  With a source whose first page is empty
and whose second page holds one document, two pages are read but only
one execute call is made — the empty page is never handed to the
executor. -/
theorem c9_counterexample :
    (migrateContainer 3 false true [[], [okCreateDoc 1]]).2.1 =
      [.read none, .read (some 1), .execute [1]]
    ∧ (executePages (migrateContainer 3 false true [[], [okCreateDoc 1]]).2.1).length = 1
    ∧ ([[], [okCreateDoc 1]] : List (List DocBehavior)).length = 2
    ∧ (1 : Nat) ≠ 2 := by
  refine ⟨by decide, by decide, by decide, by decide⟩

/-- C9, amended: with `continueOnError` on, the `migrateContainer` read
loop starts with no continuation token, re-issues the token returned by
each read until the collaborator returns none — reading every source
page exactly once, in order — and hands each NON-EMPTY page's items to
`_migrateBatch` in exactly one execute call before issuing the next
read; empty pages are read but produce no execute call. -/
theorem c9_pagination_amended (m : Nat) (sE : Bool) (pages : List (List DocBehavior)) :
    (migrateContainer m sE true pages).2.2 = none
    ∧ (migrateContainer m sE true pages).2.1 =
        .read none :: (expectedExec pages 0
          ++ ((List.range' 1 (pages.length - 1)).map (expectedChunk pages)).flatten)
    ∧ readTokens (migrateContainer m sE true pages).2.1 =
        none :: (List.range' 1 (pages.length - 1)).map some
    ∧ executePages (migrateContainer m sE true pages).2.1 =
        (pages.filter (fun p => decide (0 < p.length))).map
          (fun p => p.map DocBehavior.id) :=
  migrateContainer_trace m sE pages

/-- C10: with `continueOnError` on, every document lands in exactly one
of the migrated/skipped/failed counters, so `total = migrated + skipped
+ failed` holds for each `_migrateBatch` call (which also never throws),
for each container's `containerStats`, and for the aggregated run
statistics of `migrateDatabase`. -/
theorem c10_stats_conservation :
    (∀ (m : Nat) (sE : Bool) (docs : List DocBehavior),
        (migrateBatch m sE true docs).migrated + (migrateBatch m sE true docs).skipped +
            (migrateBatch m sE true docs).failed = docs.length
        ∧ (migrateBatch m sE true docs).thrown = none)
    ∧ (∀ (m : Nat) (sE : Bool) (pages : List (List DocBehavior)),
        (migrateContainer m sE true pages).1.total =
          (migrateContainer m sE true pages).1.migrated +
            (migrateContainer m sE true pages).1.skipped +
            (migrateContainer m sE true pages).1.failed)
    ∧ (∀ (m : Nat) (sE : Bool) (containers : List ContainerBehavior),
        (migrateDatabase m sE true containers).total =
          (migrateDatabase m sE true containers).migrated +
            (migrateDatabase m sE true containers).skipped +
            (migrateDatabase m sE true containers).failed) :=
  ⟨fun m sE docs => migrateBatch_sum m sE docs,
   fun m sE pages => migrateContainer_inv m sE pages,
   fun m sE containers => migrateDatabase_inv m sE containers⟩

/-- C4: for every pair of keyed queue snapshots, `_planQueueActions`
puts exactly the source-only names in `create`, exactly the names
present on both sides whose comparator (`_shouldUpdateQueue`) reports a
difference in `update`, and exactly the destination-only names in
`delete`; on the spec's scenario `S = {a:{tag:x}, b:{tag:y}}`,
`D = {b:{tag:z}, c:{tag:w}}` the plan is `create = [a]`, `update = [b]`,
`delete = [c]`. -/
theorem c4_action_planner :
    (∀ (pm : Bool) (S D : List QueueRecord) (k : String),
        (k ∈ (planQueueActions pm S D).create.map QueueRecord.name ↔
          k ∈ S.map QueueRecord.name ∧ k ∉ D.map QueueRecord.name)
        ∧ (k ∈ (planQueueActions pm S D).update.map UpdateAction.name ↔
            ∃ s ∈ S, s.name = k ∧ ∃ d, getName D k = some d ∧
              shouldUpdateQueue pm s d = true)
        ∧ (k ∈ (planQueueActions pm S D).delete.map QueueRecord.name ↔
            k ∈ D.map QueueRecord.name ∧ k ∉ S.map QueueRecord.name))
    ∧ (planQueueActions true scenarioSource scenarioDestination).create.map
        QueueRecord.name = ["a"]
    ∧ (planQueueActions true scenarioSource scenarioDestination).update.map
        UpdateAction.name = ["b"]
    ∧ (planQueueActions true scenarioSource scenarioDestination).delete.map
        QueueRecord.name = ["c"] :=
  ⟨fun pm S D k => ⟨planCreate_mem pm S D k, planUpdate_mem pm S D k,
      planDelete_mem pm S D k⟩,
   by decide, by decide, by decide⟩

/-- C5: with the preserve-destination-only flag set, `synchronizeQueues`
never calls `_executeDeleteActions` — no deletion is issued — and counts
every destination-only key once under the separate `skippedQueues`
counter; the planner's `delete` list is exactly the destination-only
entries, and the comparer path (`_compareQueueLists`) likewise plans no
delete action; on the spec's scenario the skipped-deletions count is 1
(for key `c`). -/
theorem c5_preserve_destination_only :
    (∀ (pm : Bool) (S D : List QueueRecord),
        synchronizeQueuesDeletePhase true (planQueueActions pm S D).delete =
          ([], (planQueueActions pm S D).delete.length)
        ∧ (planQueueActions pm S D).delete =
            D.filter (fun q => !hasName S q.name))
    ∧ (∀ S D : List QueueRecord, (compareQueueListsActions true S D).delete = [])
    ∧ synchronizeQueuesDeletePhase true
        (planQueueActions true scenarioSource scenarioDestination).delete = ([], 1)
    ∧ (planQueueActions true scenarioSource scenarioDestination).delete.map
        QueueRecord.name = ["c"] := by
  refine ⟨fun pm S D => ⟨deletePhase_preserve _, rfl⟩, fun S D => ?_, ?_, by decide⟩
  · simp [compareQueueListsActions]
  · rw [deletePhase_preserve]
    decide

/-- C8: `StorageConfig.validate` reports an error exactly when the
source credentials are missing (no connection string and no account name
with key or SAS token), or the destination credentials are likewise
missing, or no service type is selected; `StorageMigrator.migrate` runs
`validate` first, so an invalid configuration makes `migrate` raise
before any migration work is invoked, while a valid configuration passes
validation and proceeds to the service work. -/
theorem c8_config_validation (c : StorageConfig) :
    (c.validate ≠ [] ↔
      ((c.sourceConnectionString = "" ∧ (c.sourceAccountName = "" ∨
          (c.sourceAccountKey = "" ∧ c.sourceSasToken = "")))
        ∨ (c.destinationConnectionString = "" ∧ (c.destinationAccountName = "" ∨
            (c.destinationAccountKey = "" ∧ c.destinationSasToken = "")))
        ∨ (!c.includeBlobs ∧ !c.includeFiles ∧ !c.includeQueues ∧ !c.includeTables)))
    ∧ (∀ w : Unit → List String, c.validate ≠ [] →
        StorageMigrator.migrate c w = Except.error "Configuration validation failed")
    ∧ (∀ w : Unit → List String, c.validate = [] →
        StorageMigrator.migrate c w =
          Except.ok (if c.includeBlobs then w () else [])) := by
  refine ⟨?_, ?_, ?_⟩
  · by_cases h1 : (c.sourceConnectionString = "" ∧ (c.sourceAccountName = "" ∨
        (c.sourceAccountKey = "" ∧ c.sourceSasToken = ""))) <;>
      by_cases h2 : (c.destinationConnectionString = "" ∧ (c.destinationAccountName = "" ∨
        (c.destinationAccountKey = "" ∧ c.destinationSasToken = ""))) <;>
      by_cases h3 : ((!c.includeBlobs : Prop) ∧ !c.includeFiles ∧ !c.includeQueues ∧
        !c.includeTables) <;>
      simp [StorageConfig.validate, h1, h2, h3]
  · intro w h
    simp [StorageMigrator.migrate, h]
  · intro w h
    simp [StorageMigrator.migrate, h]

/-- A configuration with no credentials and no service selected. -/
def emptyConfig : StorageConfig := ⟨"", "", "", "", "", "", "", "", false, false, false, false⟩

/-- A configuration with connection strings on both sides and blob
migration selected. -/
def devConfig : StorageConfig :=
  ⟨"UseDevelopmentStorage=true", "", "", "", "UseDevelopmentStorage=true", "", "", "",
   true, false, false, false⟩

/-- C8, witness: the empty configuration fails validation and `migrate`
raises without running the blob work; the development configuration
passes validation and the blob work runs. -/
theorem c8_witness :
    emptyConfig.validate ≠ []
    ∧ StorageMigrator.migrate emptyConfig (fun _ => []) =
        Except.error "Configuration validation failed"
    ∧ devConfig.validate = []
    ∧ StorageMigrator.migrate devConfig (fun _ => ["copied container"]) =
        Except.ok ["copied container"] := by
  refine ⟨by decide, (c8_config_validation emptyConfig).2.1 _ (by decide), by decide, ?_⟩
  have h := (c8_config_validation devConfig).2.2 (fun _ => ["copied container"]) (by decide)
  simpa using h

end CloudTools
